import Mathlib

/-!
# Verification of `FormBuilder` (forms-deprecated/form_builder.ts)

A shallow embedding of the `FormBuilder` factory from
`src/modules/@angular/common/src/forms-deprecated/form_builder.ts`, together
with proofs of the specified properties.

The builder is untyped JavaScript at its boundary: a configuration node is an
arbitrary runtime value.  We model JavaScript runtime values by `JSValue`,
which includes `undefined` and `null` (distinct values in JavaScript), plain
data, opaque function values (validators are never invoked by the builder, so
a function is modelled by an opaque identifier), arrays, string-keyed objects,
and instances of the three model classes.  Out-of-range array indexing in
JavaScript yields `undefined` rather than faulting; we model `a[i]` by
`List.getD i .undefined`.

The model classes `Control`, `ControlGroup`, `ControlArray` live in the
external `./model` module (not part of this source tree).  Per the
specification, their constructors simply wrap their arguments and always
succeed; they are modelled by the three constructors of `AbstractControl`.
-/

mutual

/-- A JavaScript runtime value as the builder can observe it: `undefined`,
`null`, primitives, opaque function values, arrays, string-keyed objects, and
already-constructed instances of the model classes. -/
inductive JSValue : Type where
  | undefined : JSValue
  | null : JSValue
  | boolean : Bool → JSValue
  | number : Int → JSValue
  | string : String → JSValue
  | func : Nat → JSValue
  | array : List JSValue → JSValue
  | object : List (String × JSValue) → JSValue
  | inst : AbstractControl → JSValue

/-- Modelled from the spec: the external model classes (`Control`,
`ControlGroup`, `ControlArray` from `./model`, not in this source tree).
Their constructors "always succeed; construct and return a new object
wrapping the given value and validators", so each is modelled as a
constructor that records its arguments:
`Control(value, validator, asyncValidator)`,
`ControlGroup(controlsMap, optionals, validator, asyncValidator)`,
`ControlArray(controlsList, validator, asyncValidator)`. -/
inductive AbstractControl : Type where
  | control : JSValue → JSValue → JSValue → AbstractControl
  | controlGroup : List (String × AbstractControl) → JSValue → JSValue → JSValue →
      AbstractControl
  | controlArray : List AbstractControl → JSValue → JSValue → AbstractControl

end

namespace JSValue

/-- The `instanceof Control || instanceof ControlGroup || instanceof
ControlArray` test of `_createControl`'s first branch. -/
def isControlInstance : JSValue → Bool
  | .inst _ => true
  | _ => false

/-- The `isArray` test (facade `lang.ts`)
of `_createControl`'s second branch. -/
def isArrayShaped : JSValue → Bool
  | .array _ => true
  | _ => false

/-- JavaScript "nullish": `undefined` or `null`.  Both are rendered as
"none/null" by the specification. -/
def isNullish : JSValue → Bool
  | .undefined => true
  | .null => true
  | _ => false

end JSValue

namespace AbstractControl

/-- The stored value of a leaf `Control`; `none` for groups and arrays. -/
def storedValue : AbstractControl → Option JSValue
  | .control v _ _ => some v
  | _ => none

/-- The synchronous validator stored in a model object. -/
def syncValidator : AbstractControl → JSValue
  | .control _ f _ => f
  | .controlGroup _ _ f _ => f
  | .controlArray _ f _ => f

/-- The asynchronous validator stored in a model object. -/
def asyncValidatorOf : AbstractControl → JSValue
  | .control _ _ a => a
  | .controlGroup _ _ _ a => a
  | .controlArray _ _ a => a

/-- The field map of a `ControlGroup`; `[]` for the other model classes. -/
def groupControls : AbstractControl → List (String × AbstractControl)
  | .controlGroup cs _ _ _ => cs
  | _ => []

/-- The `optionals` metadata of a `ControlGroup`; `undefined` otherwise. -/
def groupOptionals : AbstractControl → JSValue
  | .controlGroup _ o _ _ => o
  | _ => .undefined

/-- The element list of a `ControlArray`; `[]` for the other model classes. -/
def arrayControls : AbstractControl → List AbstractControl
  | .controlArray cs _ _ => cs
  | _ => []

end AbstractControl

/-- Modelled from the spec: `StringMapWrapper.get` from the facade
(`../facade/collection`, not in this source tree): returns the value stored
under `key`, and `undefined` when the key is absent ("missing individual keys
are treated as none/null"). -/
def stringMapGet (m : List (String × JSValue)) (key : String) : JSValue :=
  match m.find? (fun kv => kv.1 == key) with
  | some kv => kv.2
  | none => .undefined

namespace FormBuilder

/-- `control(value, validator = null, asyncValidator = null)`:
`return new Control(value, validator, asyncValidator);`
(form_builder.ts lines 82-85; the TypeScript defaults are `null`, written
explicitly at every call site below). -/
def control (value validator asyncValidator : JSValue) : AbstractControl :=
  .control value validator asyncValidator

/-- `_createControl(controlConfig)` (form_builder.ts lines 108-122): pass an
existing model instance through unchanged; interpret an array positionally as
`[value, validator?, asyncValidator?]` (JavaScript indexing: `config[0]` is
`undefined` when absent, `config[1]`/`config[2]` are consulted only when
`config.length > 1` / `> 2`, otherwise `null`); otherwise treat the node
itself as the initial value. -/
def _createControl (controlConfig : JSValue) : AbstractControl :=
  match controlConfig with
  | .inst c => c
  | .array elems =>
      let value := elems.getD 0 .undefined
      let validator := if elems.length > 1 then elems.getD 1 .undefined else .null
      let asyncValidator := if elems.length > 2 then elems.getD 2 .undefined else .null
      control value validator asyncValidator
  | other => control other .null .null

/-- `_reduceControls(controlsConfig)` (form_builder.ts lines 99-105): build a
new map with the same keys, each value resolved by `_createControl`.
JavaScript object keys are unique; the map is modelled as an association list
in iteration order. -/
def _reduceControls (controlsConfig : List (String × JSValue)) :
    List (String × AbstractControl) :=
  controlsConfig.map (fun kv => (kv.1, _createControl kv.2))

/-- `group(controlsConfig, extra = null)` (form_builder.ts lines 70-78).
`extra` is a string map or `null` (modelled by `Option`); `isPresent` from
the facade is exactly the `Option.isSome` test here, and each recognised key
is fetched with `StringMapWrapper.get`. -/
def group (controlsConfig : List (String × JSValue))
    (extra : Option (List (String × JSValue))) : AbstractControl :=
  let controls := _reduceControls controlsConfig
  let optionals := match extra with
    | some e => stringMapGet e "optionals"
    | none => .null
  let validator := match extra with
    | some e => stringMapGet e "validator"
    | none => .null
  let asyncValidator := match extra with
    | some e => stringMapGet e "asyncValidator"
    | none => .null
  .controlGroup controls optionals validator asyncValidator

/-- `array(controlsConfig, validator = null, asyncValidator = null)`
(form_builder.ts lines 91-96):
`var controls = controlsConfig.map(c => this._createControl(c));
 return new ControlArray(controls, validator, asyncValidator);` -/
def array (controlsConfig : List JSValue) (validator asyncValidator : JSValue) :
    AbstractControl :=
  .controlArray (controlsConfig.map _createControl) validator asyncValidator

end FormBuilder

/-- Association-list lookup commutes with mapping over the values. -/
theorem lookup_map_value (f : JSValue → AbstractControl) (k : String) :
    ∀ l : List (String × JSValue),
      List.lookup k (l.map fun kv => (kv.1, f kv.2)) = (List.lookup k l).map f
  | [] => rfl
  | (k', _) :: t => by
      simp only [List.map, List.lookup]
      cases k == k' with
      | true => rfl
      | false => exact lookup_map_value f k t

/-- C1: an array-shaped configuration node is read positionally — element 0 is
the initial value, element 1 (only when more than 1 element) the sync
validator, element 2 (only when more than 2 elements) the async validator,
missing trailing validators `null`, and the result is `control` applied to
those three arguments; in particular `[v, val]` gives `control v val null`
and `[v]` gives `control v null null`. -/
theorem createControl_array_positional (xs : List JSValue) :
    FormBuilder._createControl (.array xs) =
      FormBuilder.control (xs.getD 0 .undefined)
        (if xs.length > 1 then xs.getD 1 .undefined else .null)
        (if xs.length > 2 then xs.getD 2 .undefined else .null) ∧
    (∀ v val : JSValue, FormBuilder._createControl (.array [v, val]) =
        FormBuilder.control v val .null) ∧
    (∀ v : JSValue, FormBuilder._createControl (.array [v]) =
        FormBuilder.control v .null .null) :=
  ⟨rfl, fun _ _ => rfl, fun _ => rfl⟩

/-- C2: `group m extra` produces a `ControlGroup` whose key list equals the
key list of `m` and whose control under each key `k` is `_createControl`
of `m`'s value under `k`. -/
theorem group_fieldwise (m : List (String × JSValue))
    (extra : Option (List (String × JSValue))) :
    (FormBuilder.group m extra).groupControls.map Prod.fst = m.map Prod.fst ∧
    ∀ k : String, List.lookup k (FormBuilder.group m extra).groupControls =
        (List.lookup k m).map FormBuilder._createControl := by
  constructor
  · simp [FormBuilder.group, FormBuilder._reduceControls, AbstractControl.groupControls]
  · intro k
    have h : (FormBuilder.group m extra).groupControls =
        m.map fun kv => (kv.1, FormBuilder._createControl kv.2) := rfl
    rw [h, lookup_map_value]

/-- C3: a configuration node that is already a model instance is passed
through unchanged by `_createControl`, and such a node satisfies the
`instanceof` test of the first branch of the dispatch. -/
theorem createControl_passthrough (c : AbstractControl) :
    FormBuilder._createControl (JSValue.inst c) = c ∧
    (JSValue.inst c).isControlInstance = true :=
  ⟨rfl, rfl⟩

/-- C4: `array a validator asyncValidator` is a `ControlArray` carrying the
two validators whose element list is `_createControl` mapped over `a` in
order: it has the same length as `a` and its `i`-th element is
`_createControl` of the `i`-th element of `a`. -/
theorem array_preserves_order (a : List JSValue) (validator asyncValidator : JSValue) :
    FormBuilder.array a validator asyncValidator =
      .controlArray (a.map FormBuilder._createControl) validator asyncValidator ∧
    (FormBuilder.array a validator asyncValidator).arrayControls.length = a.length ∧
    ∀ i : Nat, (FormBuilder.array a validator asyncValidator).arrayControls[i]? =
        a[i]?.map FormBuilder._createControl := by
  refine ⟨rfl, ?_, ?_⟩
  · simp [FormBuilder.array, AbstractControl.arrayControls]
  · intro i
    simp [FormBuilder.array, AbstractControl.arrayControls, List.getElem?_map]

/-- C5: `control v .null .null` is a `Control` storing exactly `v` with both
validators `null`, and with supplied validators `control` wraps exactly the
given three arguments. -/
theorem control_wraps (v val aval : JSValue) :
    (FormBuilder.control v .null .null).storedValue = some v ∧
    (FormBuilder.control v .null .null).syncValidator = .null ∧
    (FormBuilder.control v .null .null).asyncValidatorOf = .null ∧
    FormBuilder.control v val aval = AbstractControl.control v val aval :=
  ⟨rfl, rfl, rfl, rfl⟩

/-- C6: the `optionals`, `validator` and `asyncValidator` keys of `extra` are
passed to the `ControlGroup`; a missing key yields a nullish (`undefined`)
option and a missing `extra` yields `null` options. -/
theorem group_extra_options (m : List (String × JSValue)) (o fv afv : JSValue) :
    FormBuilder.group m
        (some [("optionals", o), ("validator", fv), ("asyncValidator", afv)]) =
      .controlGroup (FormBuilder._reduceControls m) o fv afv ∧
    (FormBuilder.group m (some [("optionals", o)])).groupOptionals = o ∧
    (FormBuilder.group m (some [("optionals", o)])).syncValidator.isNullish = true ∧
    (FormBuilder.group m (some [("optionals", o)])).asyncValidatorOf.isNullish = true ∧
    (FormBuilder.group m none).groupOptionals = .null ∧
    (FormBuilder.group m none).syncValidator = .null ∧
    (FormBuilder.group m none).asyncValidatorOf = .null :=
  ⟨rfl, rfl, rfl, rfl, rfl, rfl, rfl⟩

/-- C7: a node that is neither a model instance nor array-shaped falls
through to the last branch: it becomes the initial value of a `Control` with
no validators, `control node null null`. -/
theorem createControl_raw_fallback (node : JSValue)
    (h1 : node.isControlInstance = false) (h2 : node.isArrayShaped = false) :
    FormBuilder._createControl node = FormBuilder.control node .null .null := by
  cases node with
  | inst c => exact absurd h1 (by simp [JSValue.isControlInstance])
  | array xs => exact absurd h2 (by simp [JSValue.isArrayShaped])
  | undefined => rfl
  | null => rfl
  | boolean b => rfl
  | number n => rfl
  | string s => rfl
  | func i => rfl
  | object fs => rfl

/-- Witness for the raw-value fallback at a concrete plain-object node. -/
theorem createControl_raw_fallback_witness :
    (JSValue.object [("x", JSValue.number 1)]).isControlInstance = false ∧
    (JSValue.object [("x", JSValue.number 1)]).isArrayShaped = false ∧
    FormBuilder._createControl (JSValue.object [("x", JSValue.number 1)]) =
      FormBuilder.control (JSValue.object [("x", JSValue.number 1)]) .null .null :=
  ⟨rfl, rfl, createControl_raw_fallback _ rfl rfl⟩

/-- C8 counterexample: an empty sequence node does not fault — JavaScript
indexing out of range yields `undefined`, so the builder returns
`control undefined null null` normally (and the modelled downstream
constructor always succeeds). -/
theorem createControl_empty_seq_no_fault :
    FormBuilder._createControl (.array []) =
      FormBuilder.control .undefined .null .null := rfl

/-- C8 (amended): the builder never validates a sequence node and never
faults on one: every array-shaped node, the empty one included, evaluates to
a constructed `Control`; the empty node silently becomes a `Control` storing
`undefined` with `null` validators. -/
theorem createControl_malformed_total :
    (∀ xs : List JSValue, ∃ v f a,
        FormBuilder._createControl (.array xs) = AbstractControl.control v f a) ∧
    (FormBuilder._createControl (.array [])).storedValue = some JSValue.undefined ∧
    (FormBuilder._createControl (.array [])).syncValidator = .null ∧
    (FormBuilder._createControl (.array [])).asyncValidatorOf = .null :=
  ⟨fun xs => ⟨xs.getD 0 .undefined,
      if xs.length > 1 then xs.getD 1 .undefined else .null,
      if xs.length > 2 then xs.getD 2 .undefined else .null, rfl⟩,
   rfl, rfl, rfl⟩

/-- C9: the three public operations are deterministic pure functions of their
arguments — equal inputs give equal results, and no result depends on any
other call (the builder has no state for a call to read or write). -/
theorem builder_pure_deterministic :
    (∀ m e m' e', m = m' → e = e' →
        FormBuilder.group m e = FormBuilder.group m' e') ∧
    (∀ v f a v' f' a', v = v' → f = f' → a = a' →
        FormBuilder.control v f a = FormBuilder.control v' f' a') ∧
    (∀ c f a c' f' a', c = c' → f = f' → a = a' →
        FormBuilder.array c f a = FormBuilder.array c' f' a') := by
  refine ⟨?_, ?_, ?_⟩ <;> intros <;> subst_vars <;> rfl

/-- Witness for determinism at concrete inputs. -/
theorem builder_pure_deterministic_witness :
    FormBuilder.group [("a", JSValue.number 1)] none =
      FormBuilder.group [("a", JSValue.number 1)] none ∧
    FormBuilder.control (JSValue.string "s") JSValue.null JSValue.null =
      FormBuilder.control (JSValue.string "s") JSValue.null JSValue.null ∧
    FormBuilder.array [JSValue.number 2] JSValue.null JSValue.null =
      FormBuilder.array [JSValue.number 2] JSValue.null JSValue.null :=
  ⟨builder_pure_deterministic.1 _ _ _ _ rfl rfl,
   builder_pure_deterministic.2.1 _ _ _ _ _ _ rfl rfl rfl,
   builder_pure_deterministic.2.2 _ _ _ _ _ _ rfl rfl rfl⟩

/-- C10: elements past index 2 of an array-shaped node are ignored: the
result is `control node[0] node[1] node[2]`, the same as for the node
truncated to its first three elements. -/
theorem createControl_ignores_extra_elements (v val aval : JSValue)
    (rest : List JSValue) :
    FormBuilder._createControl (.array (v :: val :: aval :: rest)) =
      FormBuilder.control v val aval ∧
    FormBuilder._createControl (.array (v :: val :: aval :: rest)) =
      FormBuilder._createControl (.array [v, val, aval]) := by
  have h : FormBuilder._createControl (.array (v :: val :: aval :: rest)) =
      FormBuilder.control v val aval := by
    simp [FormBuilder._createControl]
  exact ⟨h, h.trans (by simp [FormBuilder._createControl])⟩
